import Mathlib

/-!
Shallow embedding of the BLE bridge (`ble_bridge.py`, with the variant
`ble_bridge_dbus.py`): a UDP link-layer <-> HCI translation pipeline.
Bytes are modelled as `Nat` (values < 256 at every producing site), byte
strings as `List Nat`, Python dicts as association lists, and the two
`random.randint` draws as explicit oracle inputs (a `List Nat` of draws,
reduced by the modulus that `randint`'s inclusive range induces).
-/

set_option maxHeartbeats 1000000

namespace RenodeBle

/-- Little-endian 16-bit decode of two bytes, as `struct.unpack("<H", b)`. -/
def dec16 (b0 b1 : Nat) : Nat := b0 + 256 * b1

/-- Little-endian 32-bit decode of four bytes, as `struct.unpack("<I", b)`. -/
def dec32 (b0 b1 b2 b3 : Nat) : Nat := b0 + 256 * b1 + 65536 * b2 + 16777216 * b3

/-- Little-endian 16-bit encode, as `struct.pack("<H", n)` (call sites keep `n < 2^16`). -/
def u16le (n : Nat) : List Nat := [n % 256, n / 256 % 256]

/-- Little-endian 32-bit encode, as `struct.pack("<I", n)`. -/
def u32le (n : Nat) : List Nat := [n % 256, n / 256 % 256, n / 65536 % 256, n / 16777216 % 256]

/-- The fixed advertising-channel access address `0x8E89BED6`. -/
def BLE_ADV_ACCESS_ADDR : Nat := 0x8E89BED6

/-- Dict lookup: first binding of the key, as Python `d.get(k)` (keys are unique
in every reachable state, so first-binding lookup is dict lookup). -/
def alookup {κ α : Type} [DecidableEq κ] : List (κ × α) → κ → Option α
  | [], _ => none
  | (k, v) :: rest, key => if key = k then some v else alookup rest key

/-- Dict store `d[k] = v`: replace the binding in place, or append a fresh one. -/
def ainsert {κ α : Type} [DecidableEq κ] : List (κ × α) → κ → α → List (κ × α)
  | [], key, val => [(key, val)]
  | (k, v) :: rest, key, val =>
    if key = k then (k, val) :: rest else (k, v) :: ainsert rest key val

/-- Dict delete `del d[k]`: removes every binding of the key (reachable states
bind each key at most once, so this agrees with Python's single delete). -/
def aerase {κ α : Type} [DecidableEq κ] : List (κ × α) → κ → List (κ × α)
  | [], _ => []
  | (k, v) :: rest, key =>
    if key = k then aerase rest key else (k, v) :: aerase rest key

theorem alookup_ainsert {κ α : Type} [DecidableEq κ] (m : List (κ × α)) (k : κ) (v : α)
    (k' : κ) : alookup (ainsert m k v) k' = if k' = k then some v else alookup m k' := by
  induction m with
  | nil => by_cases h : k' = k <;> simp [ainsert, alookup, h]
  | cons p rest ih =>
    obtain ⟨pk, pv⟩ := p
    by_cases h1 : k = pk
    · subst h1
      by_cases h2 : k' = k <;> simp [ainsert, alookup, h2]
    · by_cases h2 : k' = pk
      · subst h2
        simp [ainsert, alookup, h1, Ne.symm h1]
      · simp [ainsert, alookup, h1, h2, ih]

theorem alookup_aerase {κ α : Type} [DecidableEq κ] (m : List (κ × α)) (k k' : κ) :
    alookup (aerase m k) k' = if k' = k then none else alookup m k' := by
  induction m with
  | nil => by_cases h : k' = k <;> simp [aerase, alookup, h]
  | cons p rest ih =>
    obtain ⟨pk, pv⟩ := p
    by_cases h1 : k = pk
    · subst h1
      by_cases h2 : k' = k
      · subst h2
        simp [aerase, alookup, ih]
      · simp [aerase, alookup, h2, ih]
    · by_cases h2 : k' = pk
      · subst h2
        simp [aerase, alookup, h1, ih, Ne.symm h1]
      · simp [aerase, alookup, h1, h2, ih]

/-- Per-connection record, translated from the `ConnectionState` dataclass. -/
structure ConnectionState where
  conn_handle : Nat
  access_addr : Nat
  crc_init : Nat
  init_addr : List Nat
  init_addr_type : Nat
  adv_addr : List Nat
  adv_addr_type : Nat
  channel_map : List Nat
  hop_increment : Nat
  unmapped_channels : List Nat
  interval : Nat
  latency : Nat
  timeout : Nat
  win_size : Nat
  win_offset : Nat
  tx_sn : Nat
  tx_nesn : Nat
  rx_sn : Nat
  is_connected : Bool
  current_channel : Nat
  event_counter : Nat
deriving Repr, DecidableEq

/-- `ConnectionState._build_channel_list`: ordered indices of set bits of the
37-channel map, falling back to `[0..37)` when no bit is set. -/
def buildChannelList (cm : List Nat) : List Nat :=
  let used := (List.range 37).filter (fun i => (cm.getD (i / 8) 0 &&& (1 <<< (i % 8))) != 0)
  if used = [] then List.range 37 else used

/-- `ConnectionState.next_channel`: single-hop channel selection with remapping;
returns the new channel together with the updated record. -/
def nextChannel (c : ConnectionState) : Nat × ConnectionState :=
  let unmapped := (c.current_channel + c.hop_increment) % 37
  let newChannel :=
    if unmapped ∈ c.unmapped_channels then unmapped
    else c.unmapped_channels.getD (unmapped % c.unmapped_channels.length) 0
  (newChannel,
   { c with current_channel := newChannel, event_counter := c.event_counter + 1 })

/-- `bin(x).count("1")` for the 32-bit values arising in the generator. -/
def countOnes (n : Nat) : Nat := ((List.range 32).map (fun i => (n >>> i) &&& 1)).sum

/-- Acceptance test of one candidate inside `BLEBridge._generate_access_address`,
with the three checks in source order. -/
def aaOk (aa : Nat) : Bool :=
  if aa = BLE_ADV_ACCESS_ADDR then false
  else if countOnes (((aa >>> 26) &&& 0x3F) ^^^ (((aa >>> 26) &&& 0x3F) >>> 1)) < 2 then false
  else if aa = 0 ∨ aa = 0xFFFFFFFF then false
  else true

/-- `BLEBridge._generate_access_address`: rejection sampling over the oracle's
draws (`random.randint(0, 0xFFFFFFFF)` is the draw reduced mod `2^32`); `none`
when the supplied draw list runs out. -/
def genAccessAddress : List Nat → Option (Nat × List Nat)
  | [] => none
  | d :: rest =>
    if aaOk (d % 4294967296) then some (d % 4294967296, rest) else genAccessAddress rest

/-- Mutable bridge state used by the claims: the dual-indexed connection table
(`connections`, `access_addr_map`) and the advertising-ingress state. -/
structure BridgeState where
  connections : List (Nat × ConnectionState)
  access_addr_map : List (Nat × Nat)
  adv_addr : List Nat
  current_adv_data : Option (List Nat)
deriving Repr, DecidableEq

/-- The all-zero initial bridge state of `BLEBridge.__init__`. -/
def initialBridge : BridgeState :=
  { connections := [], access_addr_map := [], adv_addr := [0, 0, 0, 0, 0, 0],
    current_adv_data := none }

/-- The `ConnectionState(...)` construction inside `BLEBridge._create_connection`,
including the dataclass defaults and `__post_init__` building the channel list. -/
def mkConnection (handle aa crc : Nat) (peer : List Nat) (peerType : Nat)
    (advAddr : List Nat) (itv lat tmo hop : Nat) : ConnectionState :=
  { conn_handle := handle, access_addr := aa, crc_init := crc,
    init_addr := peer, init_addr_type := peerType,
    adv_addr := advAddr, adv_addr_type := 0,
    channel_map := [0xFF, 0xFF, 0xFF, 0xFF, 0x1F], hop_increment := hop,
    unmapped_channels := buildChannelList [0xFF, 0xFF, 0xFF, 0xFF, 0x1F],
    interval := itv, latency := lat, timeout := tmo,
    win_size := 1, win_offset := 0,
    tx_sn := 0, tx_nesn := 0, rx_sn := 0,
    is_connected := true, current_channel := 0, event_counter := 0 }

/-- `BLEBridge._create_connection`: draw the access address (rejection sampling),
then the CRC seed (`randint(0, 0xFFFFFF)`), then the hop increment
(`randint(5, 16)`), build the record, and store it under both indexes.
`none` only when the draw oracle runs dry. -/
def createConnection (st : BridgeState) (handle : Nat) (peer : List Nat)
    (peerType itv lat tmo : Nat) (rng : List Nat) :
    Option (BridgeState × ConnectionState × List Nat) :=
  match genAccessAddress rng with
  | none => none
  | some (aa, rng1) =>
    match rng1 with
    | [] => none
    | [_] => none
    | cDraw :: hDraw :: rng2 =>
      let conn := mkConnection handle aa (cDraw % 16777216) peer peerType st.adv_addr
        itv lat tmo (5 + hDraw % 12)
      some ({ st with connections := ainsert st.connections handle conn,
                      access_addr_map := ainsert st.access_addr_map aa handle },
            conn, rng2)

/-- `BLEBridge._send_connect_ind_to_renode`: the full BLE frame around the
34-byte CONNECT_IND PDU payload (`InitA || AdvA || LLData`). -/
def connectIndFrame (c : ConnectionState) : List Nat :=
  let llData := u32le c.access_addr ++ (u32le c.crc_init).take 3 ++ [c.win_size % 256]
    ++ u16le c.win_offset ++ u16le c.interval ++ u16le c.latency ++ u16le c.timeout
    ++ c.channel_map ++ [((c.hop_increment &&& 0x1F) ||| (0 <<< 5)) % 256]
  let payload := c.init_addr ++ c.adv_addr ++ llData
  u32le BLE_ADV_ACCESS_ADDR
    ++ [(5 ||| (c.init_addr_type <<< 6) ||| (0 <<< 7)) % 256, payload.length % 256]
    ++ payload ++ [0, 0, 0]

/-- `BLEBridge._handle_le_connection_complete` (parameters after the subevent
byte): short or failed events are ignored; a successful one creates the record
and emits a CONNECT_IND on channel 37. Output frames are `(channel, bytes)`. -/
def handleLeConnectionComplete (st : BridgeState) (params : List Nat)
    (rng : List Nat) : Option (BridgeState × List (Nat × List Nat) × List Nat) :=
  if params.length < 18 then some (st, [], rng)
  else
    let status := params.getD 0 0
    if status ≠ 0 then some (st, [], rng)
    else
      match createConnection st (dec16 (params.getD 1 0) (params.getD 2 0))
        ((params.drop 5).take 6) (params.getD 4 0)
        (dec16 (params.getD 11 0) (params.getD 12 0))
        (dec16 (params.getD 13 0) (params.getD 14 0))
        (dec16 (params.getD 15 0) (params.getD 16 0)) rng with
      | none => none
      | some (st', conn, rng') => some (st', [(37, connectIndFrame conn)], rng')

/-- The LL data-PDU header composed by `BLEBridge._send_data_to_renode`:
LLID from the packet-boundary flag, current `tx_nesn`/`tx_sn`, MD = 0,
payload length in the high byte. -/
def dataHeader (c : ConnectionState) (pb : Nat) (payload : List Nat) : Nat :=
  ((if pb = 0 ∨ pb = 2 then 2 else 1) &&& 0x03)
    ||| (c.tx_nesn &&& 1) <<< 2 ||| (c.tx_sn &&& 1) <<< 3 ||| (0 &&& 1) <<< 4
    ||| (payload.length &&& 0xFF) <<< 8

/-- `BLEBridge._send_data_to_renode`: build the LL data frame, flip `tx_sn`,
capture the pre-hop channel, then hop. Returns (channel, frame, new state). -/
def sendDataToRenode (c : ConnectionState) (pb : Nat) (payload : List Nat) :
    Nat × List Nat × ConnectionState :=
  (c.current_channel,
   u32le c.access_addr ++ u16le (dataHeader c pb payload) ++ payload ++ [0, 0, 0],
   (nextChannel { c with tx_sn := (c.tx_sn + 1) &&& 1 }).2)

/-- A run of consecutive host ACL packets `(pb_flag, payload)` forwarded on one
connection; collects the emitted `(channel, frame)` pairs. -/
def sendSeq : ConnectionState → List (Nat × List Nat) → List (Nat × List Nat) × ConnectionState
  | c, [] => ([], c)
  | c, p :: rest =>
    let r := sendDataToRenode c p.1 p.2
    let q := sendSeq r.2.2 rest
    ((r.1, r.2.1) :: q.1, q.2)

/-- SN bit of an emitted LL data frame (bit 3 of the low header byte). -/
def snOfFrame (f : List Nat) : Nat := (f.getD 4 0 >>> 3) &&& 1

/-- The LL control-PDU header composed by `BLEBridge._send_ll_terminate_to_renode`
(LLID = CONTROL = 3, no MD term, payload length 2). -/
def terminateHeader (c : ConnectionState) : Nat :=
  3 ||| (c.tx_nesn &&& 1) <<< 2 ||| (c.tx_sn &&& 1) <<< 3 ||| (2 &&& 0xFF) <<< 8

/-- The LL_TERMINATE_IND frame of `BLEBridge._send_ll_terminate_to_renode`:
opcode `0x02`, error `0x13`, placeholder CRC. -/
def terminateFrame (c : ConnectionState) : List Nat :=
  u32le c.access_addr ++ u16le (terminateHeader c) ++ [0x02, 0x13] ++ [0, 0, 0]

/-- `BLEBridge._handle_disconnect`: send LL_TERMINATE_IND on the connection's
current channel, then delete both index entries. -/
def disconnectConn (st : BridgeState) (c : ConnectionState) :
    BridgeState × List (Nat × List Nat) :=
  ({ st with access_addr_map := aerase st.access_addr_map c.access_addr,
             connections := aerase st.connections c.conn_handle },
   [(c.current_channel, terminateFrame c)])

/-- `BLEBridge._handle_disconnection_complete`: parse `status, handle, reason`;
a handle still in the table triggers the termination procedure, an unknown
handle is a no-op. -/
def handleDisconnectionComplete (st : BridgeState) (params : List Nat) :
    BridgeState × List (Nat × List Nat) :=
  if params.length < 4 then (st, [])
  else
    match alookup st.connections (dec16 (params.getD 1 0) (params.getD 2 0)) with
    | none => (st, [])
    | some c => disconnectConn st c

/-- `BLEBridge._handle_data_frame` restricted to its state effects and the
LL control path (the HCI forward of LLID 1/2 is an external output): update
`rx_sn`/`tx_nesn` from the received SN, then act on LL_TERMINATE_IND. -/
def handleDataFrame (st : BridgeState) (accessAddr : Nat) (frame : List Nat) :
    BridgeState × List (Nat × List Nat) :=
  match alookup st.access_addr_map accessAddr with
  | none => (st, [])
  | some h =>
    match alookup st.connections h with
    | none => (st, [])
    | some c =>
      if frame.length < 6 then (st, [])
      else
        let header := dec16 (frame.getD 4 0) (frame.getD 5 0)
        let sn := (header >>> 3) &&& 1
        let payload := (frame.drop 6).take ((header >>> 8) &&& 0xFF)
        let c1 := { c with rx_sn := sn, tx_nesn := (sn + 1) &&& 1 }
        let st1 := { st with connections := ainsert st.connections h c1 }
        if header &&& 0x03 = 3 then
          if payload.length < 1 then (st1, [])
          else if payload.getD 0 0 = 0x02 then disconnectConn st1 c1
          else (st1, [])
        else (st1, [])

/-- `BLEBridge._handle_adv_ind`: record the advertiser address; push the
descriptor to the host-stack collaborator only when the raw AD bytes changed.
The Bool is the push. -/
def handleAdvInd (st : BridgeState) (payload : List Nat) : BridgeState × Bool :=
  if payload.length < 6 then (st, false)
  else
    let st1 := { st with adv_addr := payload.take 6 }
    if some (payload.drop 6) = st1.current_adv_data then (st1, false)
    else ({ st1 with current_adv_data := some (payload.drop 6) }, true)

/-- Classification of what `BLEBridge._handle_renode_frame` does with one UDP
datagram (the advertising path refined down to push / no push). -/
inductive Outcome where
  | malformed
  | notTx
  | shortBle
  | advDropped
  | advIgnored
  | scanRsp
  | advNoPush
  | advPush (advAddr : List Nat) (adData : List Nat)
  | dataFrame (accessAddr : Nat)
deriving Repr, DecidableEq

/-- `BLEBridge._handle_adv_frame` as an `Outcome`: PDU header checks, then
dispatch on the PDU type, with ADV_IND-like types feeding `_handle_adv_ind`. -/
def advFrameOutcome (cur : Option (List Nat)) (frame : List Nat) : Outcome :=
  let pduType := frame.getD 4 0 &&& 0x0F
  let pduLength := frame.getD 5 0
  if frame.length < pduLength + 6 then Outcome.advDropped
  else
    let payload := (frame.drop 6).take pduLength
    if pduType = 0 ∨ pduType = 2 ∨ pduType = 6 then
      if payload.length < 6 then Outcome.advDropped
      else if some (payload.drop 6) = cur then Outcome.advNoPush
      else Outcome.advPush (payload.take 6) (payload.drop 6)
    else if pduType = 4 then Outcome.scanRsp
    else Outcome.advIgnored

/-- `BLEBridge._handle_renode_frame` as an `Outcome`: the sub-4-byte check,
the slice `data[4:4+length]` (silent truncation), the TX-type check, the
6-byte minimum, and the access-address dispatch. -/
def renodeFrameOutcome (cur : Option (List Nat)) (data : List Nat) : Outcome :=
  if data.length < 4 then Outcome.malformed
  else
    let ble := (data.drop 4).take (dec16 (data.getD 2 0) (data.getD 3 0))
    if data.getD 0 0 ≠ 1 then Outcome.notTx
    else if ble.length < 6 then Outcome.shortBle
    else if dec32 (ble.getD 0 0) (ble.getD 1 0) (ble.getD 2 0) (ble.getD 3 0)
        = BLE_ADV_ACCESS_ADDR then advFrameOutcome cur ble
    else Outcome.dataFrame
      (dec32 (ble.getD 0 0) (ble.getD 1 0) (ble.getD 2 0) (ble.getD 3 0))

/-- Lowercase hex digit of a nibble, as Python's `x` format. -/
def hexDigit (n : Nat) : Char := if n < 10 then Char.ofNat (48 + n) else Char.ofNat (87 + n)

/-- Zero-padded 4-hex-digit rendering of a 16-bit value (`f-string 04x`). -/
def hex4 (n : Nat) : String :=
  String.mk [hexDigit (n / 4096 % 16), hexDigit (n / 256 % 16),
             hexDigit (n / 16 % 16), hexDigit (n % 16)]

/-- `bytes.hex()`: two lowercase hex digits per byte. -/
def bytesHex (l : List Nat) : String :=
  String.mk (l.foldr (fun b acc => hexDigit (b / 16 % 16) :: hexDigit (b % 16) :: acc) [])

/-- The inner 16-bit-UUID loop of AD types 0x02/0x03: consecutive little-endian
pairs, a trailing odd byte dropped. -/
def uuid16List : List Nat → List String
  | a :: b :: rest => hex4 (dec16 a b) :: uuid16List rest
  | _ => []

/-- One 128-bit UUID: 16 little-endian bytes reversed into 8-4-4-4-12 form. -/
def uuid128 (chunk : List Nat) : String :=
  let r := chunk.reverse
  bytesHex (r.take 4) ++ "-" ++ bytesHex ((r.drop 4).take 2) ++ "-"
    ++ bytesHex ((r.drop 6).take 2) ++ "-" ++ bytesHex ((r.drop 8).take 2) ++ "-"
    ++ bytesHex (r.drop 10)

/-- The inner 128-bit-UUID loop of AD types 0x06/0x07: full 16-byte chunks
only. Fuel is the list length; each step consumes 16 bytes. -/
def uuid128Aux : Nat → List Nat → List String
  | 0, _ => []
  | fuel + 1, l =>
    if 16 ≤ l.length then uuid128 (l.take 16) :: uuid128Aux fuel (l.drop 16) else []

/-- All 128-bit UUIDs of one AD entry's data. -/
def uuid128List (l : List Nat) : List String := uuid128Aux l.length l

/-- Decode one UTF-8 scalar value, as CPython's strict decoder: rejects bad
continuations, overlong forms, surrogates and values above U+10FFFF. -/
def utf8DecodeOne : List Nat → Option (Nat × List Nat)
  | [] => none
  | b0 :: rest =>
    if b0 ≤ 0x7F then some (b0, rest)
    else if 0xC2 ≤ b0 ∧ b0 ≤ 0xDF then
      match rest with
      | b1 :: r1 =>
        if 0x80 ≤ b1 ∧ b1 ≤ 0xBF then some ((b0 - 0xC0) * 64 + (b1 - 0x80), r1) else none
      | _ => none
    else if 0xE0 ≤ b0 ∧ b0 ≤ 0xEF then
      match rest with
      | b1 :: b2 :: r2 =>
        if (if b0 = 0xE0 then 0xA0 ≤ b1 ∧ b1 ≤ 0xBF
            else if b0 = 0xED then 0x80 ≤ b1 ∧ b1 ≤ 0x9F
            else 0x80 ≤ b1 ∧ b1 ≤ 0xBF) ∧ 0x80 ≤ b2 ∧ b2 ≤ 0xBF then
          some ((b0 - 0xE0) * 4096 + (b1 - 0x80) * 64 + (b2 - 0x80), r2)
        else none
      | _ => none
    else if 0xF0 ≤ b0 ∧ b0 ≤ 0xF4 then
      match rest with
      | b1 :: b2 :: b3 :: r3 =>
        if (if b0 = 0xF0 then 0x90 ≤ b1 ∧ b1 ≤ 0xBF
            else if b0 = 0xF4 then 0x80 ≤ b1 ∧ b1 ≤ 0x8F
            else 0x80 ≤ b1 ∧ b1 ≤ 0xBF) ∧ 0x80 ≤ b2 ∧ b2 ≤ 0xBF
            ∧ 0x80 ≤ b3 ∧ b3 ≤ 0xBF then
          some ((b0 - 0xF0) * 262144 + (b1 - 0x80) * 4096 + (b2 - 0x80) * 64 + (b3 - 0x80), r3)
        else none
      | _ => none
    else none

/-- `data.decode("utf-8")` (strict): the code points, or `none` on any error.
Fuel is the length; each scalar consumes at least one byte. -/
def utf8DecodeAux : Nat → List Nat → Option (List Nat)
  | _, [] => some []
  | 0, _ :: _ => none
  | fuel + 1, l =>
    match utf8DecodeOne l with
    | none => none
    | some (cp, rest) => (utf8DecodeAux fuel rest).map (fun t => cp :: t)

/-- Strict UTF-8 decode of a byte string into code points. -/
def utf8Decode (l : List Nat) : Option (List Nat) := utf8DecodeAux l.length l

/-- `data.decode("utf-8", errors="ignore")`: like the strict decode but an
undecodable byte is skipped. Renders the claim's lossy decode. -/
def utf8LossyAux : Nat → List Nat → List Nat
  | _, [] => []
  | 0, _ :: _ => []
  | fuel + 1, b :: rest =>
    match utf8DecodeOne (b :: rest) with
    | some (cp, r) => cp :: utf8LossyAux fuel r
    | none => utf8LossyAux fuel rest

/-- Lossy UTF-8 decode of a byte string into code points. -/
def utf8LossyDecode (l : List Nat) : List Nat := utf8LossyAux l.length l

/-- The advertisement descriptor built by `DBusAdvertisement.update_from_ad_data`
(local name kept as its decoded code points). -/
structure AdvDescriptor where
  service_uuids : List String
  manufacturer_data : List (Nat × List Nat)
  service_data : List (String × List Nat)
  local_name : Option (List Nat)
deriving Repr, DecidableEq

/-- The reset descriptor at the top of `update_from_ad_data`. -/
def emptyDesc : AdvDescriptor :=
  { service_uuids := [], manufacturer_data := [], service_data := [], local_name := none }

/-- The per-entry dispatch in the body of `update_from_ad_data`'s loop,
type branches in source order. -/
def adStep (d : AdvDescriptor) (t : Nat) (data : List Nat) : AdvDescriptor :=
  if t = 0x01 then d
  else if t = 0x02 ∨ t = 0x03 then
    { d with service_uuids := d.service_uuids ++ uuid16List data }
  else if t = 0x06 ∨ t = 0x07 then
    { d with service_uuids := d.service_uuids ++ uuid128List data }
  else if t = 0x08 ∨ t = 0x09 then
    match utf8Decode data with
    | some name => { d with local_name := some name }
    | none => d
  else if t = 0xFF then
    if 2 ≤ data.length then
      { d with manufacturer_data :=
          ainsert d.manufacturer_data (dec16 (data.getD 0 0) (data.getD 1 0)) (data.drop 2) }
    else d
  else if t = 0x16 then
    if 2 ≤ data.length then
      { d with service_data :=
          ainsert d.service_data (hex4 (dec16 (data.getD 0 0) (data.getD 1 0))) (data.drop 2) }
    else d
  else d

/-- The parsing loop of `update_from_ad_data`, fused with the dispatch: stops
when fewer than two bytes remain, on a zero length byte, or when the entry
would overrun the buffer. Fuel is the length; a step consumes at least two
bytes. -/
def updateAdAux : Nat → AdvDescriptor → List Nat → AdvDescriptor
  | 0, d, _ => d
  | fuel + 1, d, l =>
    match l with
    | [] => d
    | [_] => d
    | len :: t :: rest =>
      if len = 0 then d
      else if rest.length + 1 < len then d
      else updateAdAux fuel (adStep d t (rest.take (len - 1))) (rest.drop (len - 1))

/-- `DBusAdvertisement.update_from_ad_data`: reset, then iterate AD entries. -/
def updateFromAdData (ad : List Nat) : AdvDescriptor := updateAdAux ad.length emptyDesc ad

/-- The AD structures `(type, data)` of a buffer, per the spec's iteration
scheme: entries `[length, type, data[length-1]]` until the buffer is exhausted,
a zero length byte appears, or an entry would overrun the buffer. -/
def parseAdAux : Nat → List Nat → List (Nat × List Nat)
  | 0, _ => []
  | fuel + 1, l =>
    match l with
    | [] => []
    | [_] => []
    | len :: t :: rest =>
      if len = 0 then []
      else if rest.length + 1 < len then []
      else (t, rest.take (len - 1)) :: parseAdAux fuel (rest.drop (len - 1))

/-- Entry list of an AD buffer. -/
def parseAd (l : List Nat) : List (Nat × List Nat) := parseAdAux l.length l

/-- The spec-side descriptor construction: parse the AD structures, then fold
the per-type table over them, starting from the reset descriptor. -/
def specAdUpdate (ad : List Nat) : AdvDescriptor :=
  (parseAd ad).foldl (fun d e => adStep d e.1 e.2) emptyDesc

/-- Connection-table operations driven by the host: a successful LE Connection
Complete (with its draw oracle) or a Disconnection Complete for a handle. -/
inductive TableOp where
  | create (handle : Nat) (peer : List Nat) (peerType itv lat tmo : Nat) (rng : List Nat)
  | disconnect (handle : Nat)
deriving Repr, DecidableEq

/-- State effect of one table operation (emitted frames discarded): creation
via `_create_connection`, termination via the `_handle_disconnection_complete`
lookup feeding `_handle_disconnect`. -/
def stepOp (st : BridgeState) : TableOp → BridgeState
  | .create h peer pt itv lat tmo rng =>
    match createConnection st h peer pt itv lat tmo rng with
    | none => st
    | some (st', _, _) => st'
  | .disconnect h =>
    match alookup st.connections h with
    | none => st
    | some c => (disconnectConn st c).1

/-- Run a sequence of table operations. -/
def runOps (st : BridgeState) : List TableOp → BridgeState
  | [] => st
  | op :: rest => runOps (stepOp st op) rest

/-- Freshness of one operation: a creation must not re-use a live handle, and
its drawn access address must not be live. Terminations are always fine. -/
def opOkB (st : BridgeState) : TableOp → Bool
  | .create h _ _ _ _ _ rng =>
    (alookup st.connections h).isNone &&
      (match genAccessAddress rng with
       | none => true
       | some (aa, _) => (alookup st.access_addr_map aa).isNone)
  | .disconnect _ => true

/-- Freshness of a whole operation sequence, step by step. -/
def opsOkB (st : BridgeState) : List TableOp → Bool
  | [] => true
  | op :: rest => opOkB st op && opsOkB (stepOp st op) rest

/-- Invariant I1: the two indexes agree. Every access-address entry points at a
live record that carries that address and its own handle, and every record is
reachable back through the access-address index. -/
def tableConsistent (st : BridgeState) : Prop :=
  (∀ a h, alookup st.access_addr_map a = some h →
    ∃ c, alookup st.connections h = some c ∧ c.access_addr = a ∧ c.conn_handle = h) ∧
  (∀ h c, alookup st.connections h = some c →
    c.conn_handle = h ∧ alookup st.access_addr_map c.access_addr = some h)

/-! Helper lemmas shared by the claim theorems. -/

set_option maxRecDepth 10000

theorem dataHeaderBits : ∀ l < 4, ∀ n < 2, ∀ s < 2, ∀ m < 2, ∀ L < 256,
    ((l ||| n <<< 2 ||| s <<< 3 ||| m <<< 4 ||| L <<< 8) % 256) &&& 3 = l ∧
    (((l ||| n <<< 2 ||| s <<< 3 ||| m <<< 4 ||| L <<< 8) % 256) >>> 3) &&& 1 = s := by
  decide

theorem list_getD_mem (l : List Nat) (i : Nat) (h : i < l.length) : l.getD i 0 ∈ l := by
  induction l generalizing i with
  | nil => simp at h
  | cons a tl ih =>
    cases i with
    | zero => simp [List.getD]
    | succ j =>
      simp only [List.getD_cons_succ]
      exact List.mem_cons_of_mem _ (ih j (by simpa using h))

theorem advFrameOutcome_ne_malformed (cur : Option (List Nat)) (f : List Nat) :
    advFrameOutcome cur f ≠ Outcome.malformed := by
  unfold advFrameOutcome
  dsimp only
  split_ifs <;> simp

/-- A concrete connection record used by witnesses. -/
def cExample : ConnectionState :=
  mkConnection 1 0x55555555 0x123456 [1, 2, 3, 4, 5, 6] 0 [6, 5, 4, 3, 2, 1] 24 0 200 7

/-! ## C8 — access-address generator validity -/

/-- C8: every access address the generator returns avoids the advertising
address, all-zero and all-one words, and has at least two bit transitions in
its top six bits; conversely any drawn 32-bit value meeting these conditions
is accepted, and the acceptance test is exactly that conjunction. -/
theorem access_address_validity :
    (∀ a, aaOk a = true ↔
      (a ≠ BLE_ADV_ACCESS_ADDR ∧ a ≠ 0 ∧ a ≠ 0xFFFFFFFF ∧
        2 ≤ countOnes (((a >>> 26) &&& 0x3F) ^^^ (((a >>> 26) &&& 0x3F) >>> 1)))) ∧
    (∀ rng aa rest, genAccessAddress rng = some (aa, rest) → aaOk aa = true) ∧
    (∀ d rest, aaOk (d % 4294967296) = true →
      genAccessAddress (d :: rest) = some (d % 4294967296, rest)) := by
  refine ⟨fun a => ?_, fun rng => ?_, fun d rest h => ?_⟩
  · unfold aaOk
    split_ifs with h1 h2 h3
    · simp [h1]
    · simp only [Bool.false_eq_true, false_iff]
      rintro ⟨-, -, -, h4⟩
      omega
    · simp only [Bool.false_eq_true, false_iff]
      rintro ⟨-, h0, hm, -⟩
      rcases h3 with h3 | h3
      · exact h0 h3
      · exact hm h3
    · constructor
      · intro _
        exact ⟨h1, fun hx => h3 (Or.inl hx), fun hx => h3 (Or.inr hx), by omega⟩
      · intro _
        rfl
  · induction rng with
    | nil => intro aa rest h; simp [genAccessAddress] at h
    | cons d tl ih =>
      intro aa rest h
      by_cases hd : aaOk (d % 4294967296) = true
      · rw [genAccessAddress, if_pos hd] at h
        simp only [Option.some.injEq, Prod.mk.injEq] at h
        rw [← h.1]
        exact hd
      · rw [genAccessAddress, if_neg hd] at h
        exact ih aa rest h
  · simp [genAccessAddress, h]

theorem access_address_validity_witness :
    aaOk (0x55555555 % 4294967296) = true ∧
    genAccessAddress [0x55555555] = some (0x55555555 % 4294967296, []) :=
  ⟨by decide, access_address_validity.2.2 0x55555555 [] (by decide)⟩

/-! ## C5 — hop algorithm -/

/-- C5: with a non-empty used-channel list (which the builder guarantees),
`next_channel` picks the candidate `(current + hop) mod 37` or its remapping
`used[candidate mod len]`, bumps the event counter by one, and always returns
a member of the used-channel list; and the builder never yields an empty list. -/
theorem next_channel_spec :
    (∀ c : ConnectionState, c.unmapped_channels ≠ [] →
      (nextChannel c).2.event_counter = c.event_counter + 1 ∧
      (nextChannel c).2.current_channel = (nextChannel c).1 ∧
      (nextChannel c).1 =
        (if (c.current_channel + c.hop_increment) % 37 ∈ c.unmapped_channels
         then (c.current_channel + c.hop_increment) % 37
         else c.unmapped_channels.getD
           ((c.current_channel + c.hop_increment) % 37 % c.unmapped_channels.length) 0) ∧
      (nextChannel c).1 ∈ c.unmapped_channels) ∧
    (∀ cm, buildChannelList cm ≠ []) := by
  constructor
  · intro c h
    refine ⟨rfl, rfl, rfl, ?_⟩
    by_cases hm : (c.current_channel + c.hop_increment) % 37 ∈ c.unmapped_channels
    · simp [nextChannel, hm]
    · simp only [nextChannel, if_neg hm]
      exact list_getD_mem _ _ (Nat.mod_lt _ (List.length_pos.mpr h))
  · intro cm
    unfold buildChannelList
    dsimp only
    split_ifs with h
    · simp
    · exact h

theorem next_channel_spec_witness :
    cExample.unmapped_channels ≠ [] ∧ (nextChannel cExample).1 ∈ cExample.unmapped_channels :=
  ⟨by decide, (next_channel_spec.1 cExample (by decide)).2.2.2⟩

/-! ## C10 — packet-boundary-flag to LLID mapping -/

/-- C10: the pb-flag dispatch in the host-to-simulator ACL path is total:
flags 0 and 2 yield LLID 2 (DATA_START) and every other value, including the
reserved 3, yields LLID 1 (DATA_CONT); a frame is always emitted. -/
theorem pb_flag_llid_total (c : ConnectionState) (pb : Nat) (payload : List Nat) :
    ((sendDataToRenode c pb payload).2.1.getD 4 0) &&& 3
        = (if pb = 0 ∨ pb = 2 then 2 else 1) ∧
    (sendDataToRenode c pb payload).2.1 ≠ [] := by
  constructor
  · have h4 : (sendDataToRenode c pb payload).2.1.getD 4 0 = dataHeader c pb payload % 256 :=
      rfl
    rw [h4]
    unfold dataHeader
    rw [(dataHeaderBits _ (lt_of_le_of_lt Nat.and_le_right (by norm_num))
      _ (lt_of_le_of_lt Nat.and_le_right (by norm_num))
      _ (lt_of_le_of_lt Nat.and_le_right (by norm_num))
      _ (lt_of_le_of_lt Nat.and_le_right (by norm_num))
      _ (lt_of_le_of_lt Nat.and_le_right (by norm_num))).1]
    split_ifs <;> rfl
  · simp [sendDataToRenode, u32le]

/-! ## C9 — advertising-data change suppression -/

/-- C9: the descriptor push happens exactly when the raw AD bytes differ from
the previously observed ones, and feeding the same payload again right after
is a no-op, so two consecutive identical frames push at most once. -/
theorem adv_data_idempotent (st : BridgeState) (payload : List Nat)
    (h : 6 ≤ payload.length) :
    ((handleAdvInd st payload).2 = true ↔ st.current_adv_data ≠ some (payload.drop 6)) ∧
    (handleAdvInd (handleAdvInd st payload).1 payload).2 = false := by
  have hlen : ¬ payload.length < 6 := by omega
  constructor
  · by_cases hc : some (payload.drop 6) = st.current_adv_data
    · simp [handleAdvInd, hlen, ← hc]
    · simp [handleAdvInd, hlen, hc]
      exact fun hx => hc hx.symm
  · by_cases hc : some (payload.drop 6) = st.current_adv_data <;>
      simp [handleAdvInd, hlen, hc]

theorem adv_data_idempotent_witness :
    6 ≤ ([1, 2, 3, 4, 5, 6, 7] : List Nat).length ∧
    (handleAdvInd (handleAdvInd initialBridge [1, 2, 3, 4, 5, 6, 7]).1
      [1, 2, 3, 4, 5, 6, 7]).2 = false :=
  ⟨by decide, (adv_data_idempotent initialBridge [1, 2, 3, 4, 5, 6, 7] (by decide)).2⟩

/-! ## C4 — malformed-frame handling (corrected) -/

/-- C4 (amended): the frame handler drops a simulator datagram as malformed
exactly when it is shorter than four bytes; a datagram of four or more bytes
whose declared length exceeds the available bytes is silently truncated by the
slice `data[4:4+length]` and processed further, not dropped. -/
theorem malformed_frame_iff (cur : Option (List Nat)) (data : List Nat) :
    renodeFrameOutcome cur data = Outcome.malformed ↔ data.length < 4 := by
  constructor
  · intro h
    by_contra hlen
    simp only [renodeFrameOutcome, if_neg hlen] at h
    split_ifs at h
    all_goals
      first
        | exact Outcome.noConfusion h
        | exact advFrameOutcome_ne_malformed _ _ h
  · intro h
    simp [renodeFrameOutcome, h]

/-- C4 counterexample: a 16-byte datagram whose length field says 38 is
shorter than `4+length`, yet it is not dropped: the truncated advertising
frame inside is processed and even pushes a descriptor update. -/
theorem malformed_frame_cex :
    ([1, 37, 0x26, 0, 0xD6, 0xBE, 0x89, 0x8E, 0x40, 6, 1, 2, 3, 4, 5, 6] : List Nat).length
        < 4 + dec16 0x26 0 ∧
    renodeFrameOutcome none [1, 37, 0x26, 0, 0xD6, 0xBE, 0x89, 0x8E, 0x40, 6, 1, 2, 3, 4, 5, 6]
        = Outcome.advPush [1, 2, 3, 4, 5, 6] [] := by
  decide

/-! ## C3 — SN alternation on the host-to-simulator data path -/

theorem sendSeq_sn (pkts : List (Nat × List Nat)) :
    ∀ c : ConnectionState, c.tx_sn < 2 → ∀ k, k < pkts.length →
      snOfFrame ((sendSeq c pkts).1.getD k (0, [])).2 = (c.tx_sn + k) % 2 := by
  induction pkts with
  | nil =>
    intro c hc k hk
    simp at hk
  | cons p rest ih =>
    intro c hc k hk
    cases k with
    | zero =>
      have hhead : ((sendSeq c (p :: rest)).1.getD 0 (0, [])).2
          = (sendDataToRenode c p.1 p.2).2.1 := rfl
      rw [hhead]
      have hbyte : snOfFrame (sendDataToRenode c p.1 p.2).2.1
          = ((dataHeader c p.1 p.2 % 256) >>> 3) &&& 1 := rfl
      rw [hbyte]
      unfold dataHeader
      rw [(dataHeaderBits _ (lt_of_le_of_lt Nat.and_le_right (by norm_num))
        _ (lt_of_le_of_lt Nat.and_le_right (by norm_num))
        _ (lt_of_le_of_lt Nat.and_le_right (by norm_num))
        _ (lt_of_le_of_lt Nat.and_le_right (by norm_num))
        _ (lt_of_le_of_lt Nat.and_le_right (by norm_num))).2]
      rw [Nat.and_one_is_mod]
      omega
    | succ j =>
      have htail : ((sendSeq c (p :: rest)).1.getD (j + 1) (0, []))
          = ((sendSeq (sendDataToRenode c p.1 p.2).2.2 rest).1.getD j (0, [])) := rfl
      rw [htail]
      have hsn : ((sendDataToRenode c p.1 p.2).2.2).tx_sn = (c.tx_sn + 1) &&& 1 := rfl
      have hlt : ((sendDataToRenode c p.1 p.2).2.2).tx_sn < 2 := by
        rw [hsn, Nat.and_one_is_mod]
        omega
      have := ih (sendDataToRenode c p.1 p.2).2.2 hlt j (by simpa using hk)
      rw [this, hsn, Nat.and_one_is_mod]
      omega

/-- C3: on a connection whose `tx_sn` starts at 0, the SN bits of the frames
emitted for any run of host ACL packets alternate 0,1,0,1,…: the k-th frame
carries SN = k mod 2. -/
theorem acl_sn_alternation (c : ConnectionState) (pkts : List (Nat × List Nat))
    (h0 : c.tx_sn = 0) :
    ∀ k, k < pkts.length →
      snOfFrame ((sendSeq c pkts).1.getD k (0, [])).2 = k % 2 := by
  intro k hk
  have h := sendSeq_sn pkts c (by omega) k hk
  rwa [h0, Nat.zero_add] at h

theorem acl_sn_alternation_witness :
    cExample.tx_sn = 0 ∧
    snOfFrame ((sendSeq cExample [(2, [1]), (2, [2])]).1.getD 1 (0, [])).2 = 1 % 2 :=
  ⟨rfl, acl_sn_alternation cExample [(2, [1]), (2, [2])] rfl 1 (by decide)⟩

/-! ## C7 — termination from either side -/

theorem termHeaderLlid : ∀ n < 2, ∀ s < 2,
    ((3 ||| n <<< 2 ||| s <<< 3 ||| (2 &&& 0xFF) <<< 8) % 256) &&& 3 = 3 := by
  decide

/-- A concrete bridge state with one live connection, used by witnesses. -/
def stExample : BridgeState :=
  { connections := [(1, cExample)], access_addr_map := [(0x55555555, 1)],
    adv_addr := [0, 0, 0, 0, 0, 0], current_adv_data := none }

/-- C7: on a Disconnection Complete for a live handle, and likewise on an
LL_TERMINATE_IND control PDU from the simulator, the bridge emits an
LL_TERMINATE_IND (LLID 3, opcode 0x02, error 0x13) on the connection's current
channel and removes the connection from both indexes; afterwards both lookups
fail and a second Disconnection Complete for the same handle is a no-op. -/
theorem termination_removes_both_indexes :
    (∀ (st : BridgeState) (h : Nat) (c : ConnectionState) (s r : Nat),
      alookup st.connections h = some c → c.conn_handle = h →
      (handleDisconnectionComplete st [s, h % 256, h / 256, r]).2
          = [(c.current_channel, terminateFrame c)] ∧
      (terminateFrame c).getD 4 0 &&& 3 = 3 ∧
      (terminateFrame c).getD 6 0 = 0x02 ∧
      (terminateFrame c).getD 7 0 = 0x13 ∧
      alookup (handleDisconnectionComplete st [s, h % 256, h / 256, r]).1.connections h
          = none ∧
      alookup (handleDisconnectionComplete st [s, h % 256, h / 256, r]).1.access_addr_map
          c.access_addr = none ∧
      handleDisconnectionComplete (handleDisconnectionComplete st [s, h % 256, h / 256, r]).1
          [s, h % 256, h / 256, r]
        = ((handleDisconnectionComplete st [s, h % 256, h / 256, r]).1, [])) ∧
    (∀ (st : BridgeState) (a hh : Nat) (c : ConnectionState),
      alookup st.access_addr_map a = some hh → alookup st.connections hh = some c →
      c.conn_handle = hh →
      (handleDataFrame st a (u32le a ++ [3, 2, 2, 0x13, 0, 0, 0])).2
          = [(c.current_channel, terminateFrame { c with rx_sn := 0, tx_nesn := 1 })] ∧
      alookup (handleDataFrame st a (u32le a ++ [3, 2, 2, 0x13, 0, 0, 0])).1.connections hh
          = none ∧
      alookup (handleDataFrame st a (u32le a ++ [3, 2, 2, 0x13, 0, 0, 0])).1.access_addr_map
          c.access_addr = none) := by
  constructor
  · intro st h c s r hc hch
    have hd16 : dec16 (h % 256) (h / 256) = h := by
      unfold dec16
      omega
    have hrun : handleDisconnectionComplete st [s, h % 256, h / 256, r]
        = disconnectConn st c := by
      unfold handleDisconnectionComplete
      rw [if_neg (by simp)]
      simp only [List.getD_cons_succ, List.getD_cons_zero]
      rw [hd16, hc]
    have hterm4 : (terminateFrame c).getD 4 0 &&& 3 = 3 := by
      have hb : (terminateFrame c).getD 4 0 = terminateHeader c % 256 := rfl
      rw [hb]
      unfold terminateHeader
      exact termHeaderLlid _ (lt_of_le_of_lt Nat.and_le_right (by norm_num))
        _ (lt_of_le_of_lt Nat.and_le_right (by norm_num))
    have hcn : alookup (disconnectConn st c).1.connections h = none := by
      show alookup (aerase st.connections c.conn_handle) h = none
      rw [hch, alookup_aerase]
      simp
    have haa : alookup (disconnectConn st c).1.access_addr_map c.access_addr = none := by
      show alookup (aerase st.access_addr_map c.access_addr) c.access_addr = none
      rw [alookup_aerase]
      simp
    refine ⟨by rw [hrun]; rfl, hterm4, rfl, rfl, by rw [hrun]; exact hcn,
      by rw [hrun]; exact haa, ?_⟩
    rw [hrun]
    unfold handleDisconnectionComplete
    rw [if_neg (by simp)]
    simp only [List.getD_cons_succ, List.getD_cons_zero]
    rw [hd16, hcn]
  · intro st a hh c ha hc hch
    have hrun : handleDataFrame st a (u32le a ++ [3, 2, 2, 0x13, 0, 0, 0])
        = disconnectConn
            { st with connections :=
                ainsert st.connections hh { c with rx_sn := 0, tx_nesn := 1 } }
            { c with rx_sn := 0, tx_nesn := 1 } := by
      unfold handleDataFrame
      simp only [ha, hc]
      have e1 : (515 : Nat) &&& 3 = 3 := by decide
      have e2 : (515 : Nat) >>> 8 &&& 255 = 2 := by decide
      have e3 : (515 : Nat) >>> 3 % 2 = 0 := by decide
      have e4 : ((515 : Nat) >>> 3 + 1) % 2 = 1 := by decide
      norm_num [u32le, dec16, e1, e2, e3, e4]
    refine ⟨by rw [hrun]; rfl, ?_, ?_⟩
    · rw [hrun]
      show alookup (aerase (ainsert st.connections hh { c with rx_sn := 0, tx_nesn := 1 })
        ({ c with rx_sn := 0, tx_nesn := 1 } : ConnectionState).conn_handle) hh = none
      have hch1 : ({ c with rx_sn := 0, tx_nesn := 1 } : ConnectionState).conn_handle = hh :=
        hch
      rw [hch1, alookup_aerase]
      simp
    · rw [hrun]
      show alookup (aerase st.access_addr_map
        ({ c with rx_sn := 0, tx_nesn := 1 } : ConnectionState).access_addr) c.access_addr
        = none
      rw [show ({ c with rx_sn := 0, tx_nesn := 1 } : ConnectionState).access_addr
        = c.access_addr from rfl, alookup_aerase]
      simp

theorem termination_removes_both_indexes_witness :
    alookup stExample.connections 1 = some cExample ∧
    alookup (handleDisconnectionComplete stExample [0, 1 % 256, 1 / 256, 0x13]).1.connections 1
      = none :=
  ⟨by decide,
   (termination_removes_both_indexes.1 stExample 1 cExample 0 0x13 (by decide)
     rfl).2.2.2.2.1⟩

/-! ## C2 — LE Connection Complete handling -/

/-- C2: a failed LE Connection Complete (status not 0) is ignored; a successful
one creates a record with the default channel map `FF FF FF FF 1F`, window
(1, 0), channel 0, zero sequence numbers, a hop increment in [5, 16] and the
event's timing parameters, inserts it under both indexes, and emits on channel
37 a CONNECT_IND whose 34-byte payload is
`init || adv || aa || crc_init[0:3] || win_size || win_offset || interval ||
latency || timeout || channel_map || (hop & 0x1F)` with the SCA bits zero. -/
theorem connection_complete_behavior (st : BridgeState)
    (s a b role pat q0 q1 q2 q3 q4 q5 i0 i1 l0 l1 t0 t1 mca : Nat)
    (rest rng rng' : List Nat) (aa cDraw hDraw : Nat)
    (hadv : st.adv_addr.length = 6)
    (hgen : genAccessAddress rng = some (aa, cDraw :: hDraw :: rng')) :
    (s ≠ 0 →
      handleLeConnectionComplete st
        (s :: a :: b :: role :: pat :: q0 :: q1 :: q2 :: q3 :: q4 :: q5
          :: i0 :: i1 :: l0 :: l1 :: t0 :: t1 :: mca :: rest) rng
        = some (st, [], rng)) ∧
    (s = 0 → ∃ conn : ConnectionState,
      handleLeConnectionComplete st
        (s :: a :: b :: role :: pat :: q0 :: q1 :: q2 :: q3 :: q4 :: q5
          :: i0 :: i1 :: l0 :: l1 :: t0 :: t1 :: mca :: rest) rng
        = some ({ st with
                    connections := ainsert st.connections (dec16 a b) conn,
                    access_addr_map := ainsert st.access_addr_map aa (dec16 a b) },
                [(37, connectIndFrame conn)], rng') ∧
      conn.conn_handle = dec16 a b ∧
      conn.access_addr = aa ∧
      conn.channel_map = [0xFF, 0xFF, 0xFF, 0xFF, 0x1F] ∧
      conn.win_size = 1 ∧ conn.win_offset = 0 ∧
      conn.current_channel = 0 ∧ conn.tx_sn = 0 ∧ conn.tx_nesn = 0 ∧ conn.rx_sn = 0 ∧
      5 ≤ conn.hop_increment ∧ conn.hop_increment ≤ 16 ∧
      conn.interval = dec16 i0 i1 ∧ conn.latency = dec16 l0 l1 ∧
      conn.timeout = dec16 t0 t1 ∧
      conn.init_addr = [q0, q1, q2, q3, q4, q5] ∧ conn.adv_addr = st.adv_addr ∧
      connectIndFrame conn
        = u32le BLE_ADV_ACCESS_ADDR
            ++ [(5 ||| pat <<< 6) % 256, 34]
            ++ (conn.init_addr ++ conn.adv_addr
                ++ (u32le aa ++ (u32le conn.crc_init).take 3 ++ [1] ++ u16le 0
                    ++ u16le conn.interval ++ u16le conn.latency ++ u16le conn.timeout
                    ++ conn.channel_map ++ [conn.hop_increment &&& 0x1F]))
            ++ [0, 0, 0] ∧
      (conn.init_addr ++ conn.adv_addr
        ++ (u32le aa ++ (u32le conn.crc_init).take 3 ++ [1] ++ u16le 0
            ++ u16le conn.interval ++ u16le conn.latency ++ u16le conn.timeout
            ++ conn.channel_map ++ [conn.hop_increment &&& 0x1F])).length = 34) := by
  have hlen : ¬ ((s :: a :: b :: role :: pat :: q0 :: q1 :: q2 :: q3 :: q4 :: q5
      :: i0 :: i1 :: l0 :: l1 :: t0 :: t1 :: mca :: rest : List Nat).length < 18) := by
    simp
  constructor
  · intro hs
    unfold handleLeConnectionComplete
    rw [if_neg hlen]
    simp only [List.getD_cons_zero]
    rw [if_pos hs]
  · intro hs
    subst hs
    refine ⟨mkConnection (dec16 a b) aa (cDraw % 16777216) [q0, q1, q2, q3, q4, q5] pat
      st.adv_addr (dec16 i0 i1) (dec16 l0 l1) (dec16 t0 t1) (5 + hDraw % 12),
      ?_, rfl, rfl, rfl, ?_, rfl, rfl, rfl, rfl, rfl, ?_, ?_, rfl, rfl, rfl, rfl, rfl,
      ?_, ?_⟩
    · unfold handleLeConnectionComplete
      rw [if_neg hlen]
      simp only [List.getD_cons_zero, List.getD_cons_succ]
      rw [if_neg (by simp)]
      unfold createConnection
      rw [hgen]
      rfl
    · rfl
    · show 5 ≤ 5 + hDraw % 12
      omega
    · show 5 + hDraw % 12 ≤ 16
      omega
    · have hhop : (5 + hDraw % 12) &&& 0x1F < 256 :=
        lt_of_le_of_lt Nat.and_le_right (by norm_num)
      unfold connectIndFrame
      simp only [Nat.zero_shiftLeft, Nat.or_zero]
      simp [mkConnection, hadv, u32le, u16le, Nat.mod_eq_of_lt hhop]
    · simp [mkConnection, hadv, u32le, u16le, List.length_append]

theorem connection_complete_behavior_witness :
    initialBridge.adv_addr.length = 6 ∧
    genAccessAddress [0x55555555, 7, 3] = some (0x55555555, 7 :: 3 :: []) ∧
    handleLeConnectionComplete initialBridge
      (1 :: 0x40 :: 0 :: 1 :: 0 :: 0x11 :: 0x22 :: 0x33 :: 0x44 :: 0x55 :: 0x66
        :: 0x18 :: 0 :: 0 :: 0 :: 0xC8 :: 0 :: 0 :: [])
      [0x55555555, 7, 3] = some (initialBridge, [], [0x55555555, 7, 3]) :=
  ⟨rfl, by decide,
   (connection_complete_behavior initialBridge 1 0x40 0 1 0 0x11 0x22 0x33 0x44 0x55 0x66
     0x18 0 0 0 0xC8 0 0 [] [0x55555555, 7, 3] [] 0x55555555 7 3 rfl (by decide)).1
     (by decide)⟩

/-! ## C1 — connection-table consistency (corrected) -/

theorem stepOp_preserves (st : BridgeState) (op : TableOp)
    (hinv : tableConsistent st) (hok : opOkB st op = true) :
    tableConsistent (stepOp st op) := by
  cases op with
  | create h peer pt itv lat tmo rng =>
    simp only [opOkB, Bool.and_eq_true, Option.isNone_iff_eq_none] at hok
    obtain ⟨hfresh, hok2⟩ := hok
    cases hgen : genAccessAddress rng with
    | none =>
      simp only [stepOp, createConnection, hgen]
      exact hinv
    | some pr =>
      obtain ⟨aa, rng1⟩ := pr
      rw [hgen] at hok2
      match rng1 with
      | [] =>
        simp only [stepOp, createConnection, hgen]
        exact hinv
      | [cDraw] =>
        simp only [stepOp, createConnection, hgen]
        exact hinv
      | cDraw :: hDraw :: rng3 =>
        have hok3 : alookup st.access_addr_map aa = none := by
          simpa using hok2
        simp only [stepOp, createConnection, hgen]
        constructor
        · intro a' h' hl
          rw [show ({ st with
              connections := ainsert st.connections h (mkConnection h aa (cDraw % 16777216)
                peer pt st.adv_addr itv lat tmo (5 + hDraw % 12)),
              access_addr_map := ainsert st.access_addr_map aa h } :
              BridgeState).access_addr_map
            = ainsert st.access_addr_map aa h from rfl, alookup_ainsert] at hl
          by_cases hcase : a' = aa
          · rw [if_pos hcase] at hl
            have hh' : h = h' := by simpa using hl
            subst hh'
            refine ⟨mkConnection h aa (cDraw % 16777216) peer pt st.adv_addr itv lat tmo
              (5 + hDraw % 12), ?_, hcase.symm ▸ rfl, rfl⟩
            show alookup (ainsert st.connections h _) h = _
            rw [alookup_ainsert, if_pos rfl]
          · rw [if_neg hcase] at hl
            obtain ⟨c', hc', hca', hch'⟩ := hinv.1 a' h' hl
            have hne : h' ≠ h := by
              intro he
              rw [he, hfresh] at hc'
              exact Option.noConfusion hc'
            refine ⟨c', ?_, hca', hch'⟩
            show alookup (ainsert st.connections h _) h' = _
            rw [alookup_ainsert, if_neg hne]
            exact hc'
        · intro h' c' hl
          rw [show ({ st with
              connections := ainsert st.connections h (mkConnection h aa (cDraw % 16777216)
                peer pt st.adv_addr itv lat tmo (5 + hDraw % 12)),
              access_addr_map := ainsert st.access_addr_map aa h } :
              BridgeState).connections
            = ainsert st.connections h (mkConnection h aa (cDraw % 16777216)
                peer pt st.adv_addr itv lat tmo (5 + hDraw % 12)) from rfl,
            alookup_ainsert] at hl
          by_cases hcase : h' = h
          · rw [if_pos hcase] at hl
            obtain rfl : c' = mkConnection h aa (cDraw % 16777216) peer pt st.adv_addr
                itv lat tmo (5 + hDraw % 12) := by simpa using hl.symm
            refine ⟨hcase ▸ rfl, ?_⟩
            show alookup (ainsert st.access_addr_map aa h) aa = some h'
            rw [alookup_ainsert, if_pos rfl, hcase]
          · rw [if_neg hcase] at hl
            obtain ⟨hch', hback⟩ := hinv.2 h' c' hl
            refine ⟨hch', ?_⟩
            have hnaa : c'.access_addr ≠ aa := by
              intro he
              rw [he, hok3] at hback
              exact Option.noConfusion hback
            show alookup (ainsert st.access_addr_map aa h) c'.access_addr = some h'
            rw [alookup_ainsert, if_neg hnaa]
            exact hback
  | disconnect h =>
    cases hlk : alookup st.connections h with
    | none =>
      simp only [stepOp, hlk]
      exact hinv
    | some c =>
      simp only [stepOp, hlk, disconnectConn]
      obtain ⟨hch, hca⟩ := hinv.2 h c hlk
      constructor
      · intro a' h' hl
        rw [show ({ st with
            access_addr_map := aerase st.access_addr_map c.access_addr,
            connections := aerase st.connections c.conn_handle } :
            BridgeState).access_addr_map
          = aerase st.access_addr_map c.access_addr from rfl, alookup_aerase] at hl
        by_cases hcase : a' = c.access_addr
        · rw [if_pos hcase] at hl
          exact Option.noConfusion hl
        · rw [if_neg hcase] at hl
          obtain ⟨c', hc', hca', hch'⟩ := hinv.1 a' h' hl
          have hne : h' ≠ h := by
            intro he
            rw [he, hlk] at hc'
            obtain rfl : c = c' := by simpa using hc'
            exact hcase (hca'.symm)
          refine ⟨c', ?_, hca', hch'⟩
          show alookup (aerase st.connections c.conn_handle) h' = _
          rw [hch, alookup_aerase, if_neg hne]
          exact hc'
      · intro h' c' hl
        rw [show ({ st with
            access_addr_map := aerase st.access_addr_map c.access_addr,
            connections := aerase st.connections c.conn_handle } :
            BridgeState).connections
          = aerase st.connections c.conn_handle from rfl, hch, alookup_aerase] at hl
        by_cases hcase : h' = h
        · rw [if_pos hcase] at hl
          exact Option.noConfusion hl
        · rw [if_neg hcase] at hl
          obtain ⟨hch', hback⟩ := hinv.2 h' c' hl
          refine ⟨hch', ?_⟩
          have hnaa : c'.access_addr ≠ c.access_addr := by
            intro he
            rw [he, hca] at hback
            obtain rfl : h = h' := by simpa using hback
            exact hcase rfl
          show alookup (aerase st.access_addr_map c.access_addr) c'.access_addr = some h'
          rw [alookup_aerase, if_neg hnaa]
          exact hback

theorem initial_consistent : tableConsistent initialBridge := by
  refine ⟨fun a h hl => ?_, fun h c hl => ?_⟩ <;> exact Option.noConfusion hl

/-- C1 (amended): over any operation sequence in which every connection
creation uses a handle that is not currently live and draws an access address
that is not currently live, the two indexes stay consistent: every
access-address entry reaches a live record carrying that address, and every
record is reachable back through the access-address index. -/
theorem connection_table_consistency (ops : List TableOp) (st : BridgeState)
    (hinv : tableConsistent st) (hok : opsOkB st ops = true) :
    tableConsistent (runOps st ops) := by
  induction ops generalizing st with
  | nil => exact hinv
  | cons op rest ih =>
    simp only [opsOkB, Bool.and_eq_true] at hok
    exact ih (stepOp st op) (stepOp_preserves st op hinv hok.1) hok.2

/-- Operation sequence exercising create, destroy and handle re-use after
destruction, used by the C1 witness. -/
def opsExample : List TableOp :=
  [TableOp.create 1 [1, 2, 3, 4, 5, 6] 0 24 0 200 [0x55555555, 7, 3],
   TableOp.disconnect 1,
   TableOp.create 1 [1, 2, 3, 4, 5, 6] 0 24 0 200 [0x66666666, 7, 3]]

theorem connection_table_consistency_witness :
    opsOkB initialBridge opsExample = true ∧
    tableConsistent (runOps initialBridge opsExample) :=
  ⟨by decide,
   connection_table_consistency opsExample initialBridge initial_consistent (by decide)⟩

/-- The duplicate-handle sequence: two creations under handle 1 with distinct
access addresses, the old record never destroyed. -/
def dupOps : List TableOp :=
  [TableOp.create 1 [1, 2, 3, 4, 5, 6] 0 24 0 200 [0x55555555, 7, 3],
   TableOp.create 1 [1, 2, 3, 4, 5, 6] 0 24 0 200 [0x66666666, 7, 3]]

/-- C1 counterexample: re-using a live handle does not destroy the old record;
the stale access-address entry `0x55555555` still points at handle 1, whose
record now carries access address `0x66666666`, so the indexes disagree. -/
theorem connection_table_consistency_cex :
    alookup (runOps initialBridge dupOps).access_addr_map 0x55555555 = some 1 ∧
    (alookup (runOps initialBridge dupOps).connections 1).map ConnectionState.access_addr
      = some 0x66666666 ∧
    ¬ tableConsistent (runOps initialBridge dupOps) := by
  refine ⟨by decide, by decide, ?_⟩
  intro hcons
  obtain ⟨c, hc, hca, -⟩ := hcons.1 0x55555555 1 (by decide)
  have h2 : (alookup (runOps initialBridge dupOps).connections 1).map
      ConnectionState.access_addr = some 0x66666666 := by decide
  rw [hc] at h2
  simp at h2
  rw [h2] at hca
  exact absurd hca (by decide)

/-! ## C6 — advertising-data parser (corrected) -/

theorem updateAd_foldl (fuel : Nat) :
    ∀ (d : AdvDescriptor) (l : List Nat),
      updateAdAux fuel d l = (parseAdAux fuel l).foldl (fun d e => adStep d e.1 e.2) d := by
  induction fuel with
  | zero =>
    intro d l
    rfl
  | succ f ih =>
    intro d l
    match l with
    | [] => rfl
    | [x] => rfl
    | len :: t :: rest =>
      show (if len = 0 then d
        else if rest.length + 1 < len then d
        else updateAdAux f (adStep d t (rest.take (len - 1))) (rest.drop (len - 1)))
        = List.foldl _ d
            (if len = 0 then []
             else if rest.length + 1 < len then []
             else (t, rest.take (len - 1)) :: parseAdAux f (rest.drop (len - 1)))
      split_ifs with h1 h2
      · rfl
      · rfl
      · rw [List.foldl_cons]
        exact ih (adStep d t (rest.take (len - 1))) (rest.drop (len - 1))

/-- C6 (amended): the descriptor builder equals the spec-side parse-then-fold
over AD entries, whose per-type table also recognizes 0x06/0x07 (128-bit
UUIDs) and sets the local name only when the bytes are valid UTF-8 under a
strict decode; a concrete flags + 16-bit-UUID + complete-name payload yields
the `fff6` UUID and the name `MatterDev`. -/
theorem ad_parser_spec :
    (∀ ad, updateFromAdData ad = specAdUpdate ad) ∧
    updateFromAdData
        [0x02, 0x01, 0x06, 0x03, 0x03, 0xF6, 0xFF,
         0x0A, 0x09, 0x4D, 0x61, 0x74, 0x74, 0x65, 0x72, 0x44, 0x65, 0x76]
      = { service_uuids := ["fff6"], manufacturer_data := [], service_data := [],
          local_name := some [0x4D, 0x61, 0x74, 0x74, 0x65, 0x72, 0x44, 0x65, 0x76] } := by
  refine ⟨fun ad => updateAd_foldl ad.length emptyDesc ad, by decide⟩

/-- C6 counterexample: the name decode is strict, not lossy. On the AD entry
`[0x03, 0x09, 0x41, 0xFF]` the claim's lossy decode yields the non-empty name
"A", but the parser leaves the local name unset; and a 0x06 entry is not
ignored: it contributes a 128-bit UUID. -/
theorem ad_parser_cex :
    (updateFromAdData [0x03, 0x09, 0x41, 0xFF]).local_name = none ∧
    utf8LossyDecode [0x41, 0xFF] = [0x41] ∧
    (updateFromAdData
        ([0x11, 0x06] ++ [0, 1, 2, 3, 4, 5, 6, 7, 8, 9, 10, 11, 12, 13, 14, 15])).service_uuids
      = ["0f0e0d0c-0b0a-0908-0706-050403020100"] := by
  decide

end RenodeBle
